import Mathlib

/-!
Verification of the sleep-edf-data-pipeline core against its specification.

The Python sources are shallowly embedded: pandas DataFrames become lists of
records, Python floats become an explicit type with NaN and infinities,
SQL tables become lists of rows, exceptions become `Except`/`Option` values,
and the Prefect flow loop becomes a fold over the subject-id list.
-/

/-- A Python float value as it matters to the validators: a finite rational,
NaN, or a signed infinity. -/
inductive PyFloat where
  | val (q : ℚ)
  | nan
  | inf
  | ninf
deriving DecidableEq

/-- Whether a float is finite (neither NaN nor an infinity). -/
def PyFloat.isFinite : PyFloat → Bool
  | .val _ => true
  | _ => false

/-- Pandas treats NaN as the null value of a float column; infinities are
ordinary non-null float64 values. -/
def PyFloat.isNull : PyFloat → Bool
  | .nan => true
  | _ => false

/-- One row of an extracted batch (schemas.py / a row of the pandera frame). -/
structure EpochRow where
  subject_id : ℤ
  epoch_idx : ℤ
  stage : String
  delta_power : PyFloat
  theta_power : PyFloat
  alpha_power : PyFloat
  sigma_power : PyFloat
  beta_power : PyFloat
deriving DecidableEq

/-- The five power fields of a row, in schema order. -/
def EpochRow.powers (r : EpochRow) : List PyFloat :=
  [r.delta_power, r.theta_power, r.alpha_power, r.sigma_power, r.beta_power]

/-- validators.py: the stage strings accepted by `SleepSchema`
(`pa.Check.isin(["W", "N1", "N2", "N3", "REM"])`). -/
def sleepSchemaStages : List String := ["W", "N1", "N2", "N3", "REM"]

/-- The full 7-symbol stage enum of the data model
(spec section 3; also the pydantic pattern in schemas.py). -/
def stageEnum7 : List String := ["W", "N1", "N2", "N3", "REM", "MOVE", "NAN"]

/-- validators.py `SleepSchema`, per row: `stage` must be in the 5-symbol
list; each power column is a float column with pandera's default
`nullable=False`, so a null (NaN) power is rejected while any other float
value — negative or infinite — passes.  `subject_id`/`epoch_idx` are integer
columns, which the `ℤ`-typed fields embed. -/
def sleepSchemaRowOk (r : EpochRow) : Bool :=
  sleepSchemaStages.contains r.stage && r.powers.all (fun p => !p.isNull)

/-- validators.py `SleepSchema.validate` on a batch (lazy validation collects
all violations; acceptance means every row passes every check). -/
def SleepSchema_validate (batch : List EpochRow) : Bool :=
  batch.all sleepSchemaRowOk

/-- duckdb_client.py `DuckDBClient.load_epochs(df, subject_id)`: deletes the
existing rows of the subject, then inserts the new rows.  The signature has
no `overwrite` parameter. -/
def DuckDB_load_epochs (table : List EpochRow) (df : List EpochRow)
    (subject_id : ℤ) : List EpochRow :=
  table.filter (fun r => r.subject_id != subject_id) ++ df

/-- Python call dispatch for `DuckDBClient.load_epochs`: passing the keyword
argument `overwrite` (as pipeline.py does) raises `TypeError`, because the
method signature is `load_epochs(self, df, subject_id)`. -/
def DuckDB_call_load_epochs (table : List EpochRow) (df : List EpochRow)
    (subject_id : ℤ) (overwrite : Option Bool) : Except String (List EpochRow) :=
  match overwrite with
  | none => .ok (DuckDB_load_epochs table df subject_id)
  | some _ => .error "TypeError: unexpected keyword argument overwrite"

/-- snowflake_client.py `SnowflakeClient.load_epochs(df, subject_id,
overwrite=True)`: deletes the subject rows only when `overwrite` is true,
then bulk-appends the dataframe when it is non-empty. -/
def Snowflake_load_epochs (table : List EpochRow) (df : List EpochRow)
    (subject_id : ℤ) (overwrite : Bool) : List EpochRow :=
  let cleared := if overwrite then
    table.filter (fun r => r.subject_id != subject_id) else table
  if df.isEmpty then cleared else cleared ++ df

/-- pipeline.py `load_parquet_to_warehouse` against the DuckDB backend:
each staged batch `i` is loaded with the keyword `overwrite=(i == 0)`,
which the DuckDB client rejects with `TypeError` on the very first call. -/
def load_batches_duckdb : List EpochRow → List (List EpochRow) → ℤ → ℕ →
    Except String (List EpochRow)
  | table, [], _, _ => .ok table
  | table, df :: rest, sid, i =>
    match DuckDB_call_load_epochs table df sid (some (i == 0)) with
    | .error e => .error e
    | .ok t => load_batches_duckdb t rest sid (i + 1)

/-- pipeline.py `load_parquet_to_warehouse` against the Snowflake backend:
batch 0 is loaded with `overwrite=True`, later batches with
`overwrite=False`. -/
def load_batches_snowflake : List EpochRow → List (List EpochRow) → ℤ → ℕ →
    List EpochRow
  | table, [], _, _ => table
  | table, df :: rest, sid, i =>
    load_batches_snowflake (Snowflake_load_epochs table df sid (i == 0))
      rest sid (i + 1)

/-- Python `"EEG" in name`: substring test used by the channel filter in
ingest/processing.py `calculate_band_power`. -/
def containsEEG (s : String) : Bool := decide ("EEG".toList <:+: s.toList)

/-- processing.py lines 154-158: `eeg_indices = [i for i, name in
enumerate(ch_names) if "EEG" in name]`, falling back to all channel indices
when no name matches. -/
def eeg_channel_indices (ch_names : List String) : List ℕ :=
  let idxs := (ch_names.enum.filter (fun p => containsEEG p.2)).map (fun p => p.1)
  if idxs.isEmpty then List.range ch_names.length else idxs

/-- `psd[:, eeg_indices, :]`: per epoch, keep the channels at the selected
indices.  The PSD tensor is (epoch, channel, frequency) as a nested list. -/
def select_channels (psd : List (List (List ℚ))) (idxs : List ℕ) :
    List (List (List ℚ)) :=
  psd.map (fun epoch => idxs.filterMap (fun i => epoch.get? i))

/-- `np.logical_and(freqs >= fmin, freqs <= fmax)`: the boolean band mask
over the frequency axis (both bounds inclusive). -/
def band_mask (freqs : List ℚ) (fmin fmax : ℚ) : List Bool :=
  freqs.map (fun f => decide (fmin ≤ f ∧ f ≤ fmax))

/-- `row[idx]` for a boolean mask: keep the entries whose mask bit is set. -/
def apply_mask (row : List ℚ) (mask : List Bool) : List ℚ :=
  ((row.zip mask).filter (fun p => p.2)).map (fun p => p.1)

/-- `freq_res = freqs[1] - freqs[0]` (processing.py line 166). -/
def freq_res (freqs : List ℚ) : ℚ := freqs.getD 1 0 - freqs.getD 0 0

/-- processing.py lines 152-170, the exact-arithmetic part of
`calculate_band_power`: select EEG channels (with the all-channels
fallback), mask the band, integrate `sum * freq_res * 1e12`, and floor at
`1e-10`.  Returns the per-epoch, per-selected-channel floored linear power;
the remaining source lines take `10*log10` of each entry and average over
the channel axis, which the theorems state with `Real.logb`. -/
def band_power_floored (psd : List (List (List ℚ))) (freqs : List ℚ)
    (ch_names : List String) (fmin fmax : ℚ) : List (List ℚ) :=
  let idxs := eeg_channel_indices ch_names
  let psd_eeg := select_channels psd idxs
  let mask := band_mask freqs fmin fmax
  psd_eeg.map (fun epoch =>
    epoch.map (fun chan =>
      max ((apply_mask chan mask).sum * freq_res freqs * 10 ^ 12)
        (1 / 10 ^ 10)))

/-- The channel-averaged dB value of one epoch row of
`band_power_floored`: `(10 * np.log10(band_power)).mean(axis=1)`
(processing.py lines 171-174). -/
noncomputable def db_mean (row : List ℚ) : ℝ :=
  ((row.map (fun (q : ℚ) => 10 * Real.logb 10 (q : ℝ))).sum) / row.length

/-- processing.py line 65: `range(0, total_epochs, batch_size)` — the batch
start indices (`batch_size > 0`). -/
def batch_starts (total_epochs batch_size : ℕ) : List ℕ :=
  List.range' 0 ((total_epochs + batch_size - 1) / batch_size) batch_size

/-- processing.py lines 65-66 and 108: per batch, `end_idx =
min(start_idx + batch_size, total_epochs)` and the `epoch_idx` column is
`range(start_idx, start_idx + batch_length)` with `batch_length` the size
of the epoch slice `epochs[start_idx:end_idx]`. -/
def batch_epoch_idx (total_epochs batch_size : ℕ) : List (List ℕ) :=
  (batch_starts total_epochs batch_size).map
    (fun s => List.range' s (min (s + batch_size) total_epochs - s) 1)

/-- The `error` value of an extraction result dict (pipeline.py): either a
plain string (`"No files found"`, `"No epochs processed"`) or a dict with
`type`, `message` and an optional `stack_trace`. -/
inductive ErrVal where
  | plain (msg : String)
  | dict (type : String) (msg : String) (trace : Option String)
deriving DecidableEq

/-- pipeline.py line 160: `msg = err["message"] if isinstance(err, dict)
else str(err)`. -/
def ErrVal.message : ErrVal → String
  | .plain s => s
  | .dict _ m _ => m

/-- The dict returned by `extract_to_parquet`: always the keys
`subject_id`, `path` and `error`.  The staging directory is represented by
its contents (the list of staged parquet batches). -/
structure ExtractResult where
  subject_id : ℤ
  path : Option (List (List EpochRow))
  error : Option ErrVal
deriving DecidableEq

/-- The environment a single run of `extract_to_parquet` sees: the file
pairs returned by `fetch_data`, the batches the generator yields (in
order), and — when the generator raises after its yields — the exception
type, message and traceback. -/
structure ExtractEnv where
  files : List (String × String)
  yielded : List (List EpochRow)
  genError : Option (String × String × String)
deriving DecidableEq

/-- pipeline.py lines 39-97, `extract_to_parquet(subject_id)`:
no files → plain error `"No files found"`; otherwise empty batches are
skipped and each remaining batch is validated with
`SleepSchema.validate(lazy=True)` — a violation raises `SchemaErrors`,
caught into a dict with type `"SchemaError"`; a generator exception
(raised after all its yields) is caught into a dict with its type, message
and traceback; zero staged batches → plain error `"No epochs processed"`;
otherwise the staged batches with `error=None`.  Every branch of this
guarded suite returns a result dict.  This models only the code from the
`try:` at line 39 onward; the staging-directory setup of lines 34-37
(`shutil.rmtree`/`mkdir`) runs before the `try` and is modelled separately
by `extract_to_parquet_task`, because a filesystem error there is not
caught. -/
def extract_to_parquet (sid : ℤ) (env : ExtractEnv) : ExtractResult :=
  if env.files.isEmpty then ⟨sid, none, some (.plain "No files found")⟩
  else
    let staged := env.yielded.filter (fun b => !b.isEmpty)
    if !(staged.all SleepSchema_validate) then
      ⟨sid, none, some (.dict "SchemaError" "schema validation failed" none)⟩
    else
      match env.genError with
      | some (ty, msg, tr) => ⟨sid, none, some (.dict ty msg (some tr))⟩
      | none =>
        if staged.isEmpty then ⟨sid, none, some (.plain "No epochs processed")⟩
        else ⟨sid, some staged, none⟩

/-- pipeline.py lines 23-97, the whole `extract_to_parquet` task: lines
34-37 clear and recreate the staging directory with `shutil.rmtree` and
`mkdir` BEFORE the `try:` at line 39, so an `OSError`/`PermissionError`
raised there is caught by no handler and propagates out of the task
(`.error`, surfacing at `result_future.result()` in the flow loop);
only when the setup succeeds does the guarded suite run and return a
result dict (`.ok`).  `stagingError` is the outcome of that setup:
`some msg` models the raised filesystem exception. -/
def extract_to_parquet_task (sid : ℤ) (stagingError : Option String)
    (env : ExtractEnv) : Except String ExtractResult :=
  match stagingError with
  | some msg => .error msg
  | none => .ok (extract_to_parquet sid env)

/-- One row of the INGESTION_ERRORS table as written by
`log_ingestion_error` from the flow loop. -/
structure ErrorLogRow where
  subject_id : ℤ
  error_type : String
  error_message : String
deriving DecidableEq

/-- The persisted warehouse: the SLEEP_EPOCHS rows and the append-only
INGESTION_ERRORS rows. -/
structure WarehouseState where
  epochs : List EpochRow
  errors : List ErrorLogRow
deriving DecidableEq

/-- `log_ingestion_error`: appends one row to INGESTION_ERRORS. -/
def log_ingestion_error (st : WarehouseState) (sid : ℤ)
    (ty msg : String) : WarehouseState :=
  ⟨st.epochs, st.errors ++ [⟨sid, ty, msg⟩]⟩

/-- The two warehouse backends selectable by `get_warehouse_client`
(factory.py); `duckdb` is the default. -/
inductive Backend where
  | duckdb
  | snowflake
deriving DecidableEq

/-- pipeline.py `load_parquet_to_warehouse` dispatched on the backend: the
DuckDB client rejects the `overwrite` keyword (TypeError), the Snowflake
client honors it. -/
def client_load_parquet (b : Backend) (table : List EpochRow)
    (batches : List (List EpochRow)) (sid : ℤ) :
    Except String (List EpochRow) :=
  match b with
  | .duckdb => load_batches_duckdb table batches sid 0
  | .snowflake => .ok (load_batches_snowflake table batches sid 0)

/-- Events observable from the flow loop, in program order: the loop
awaits a subject's extraction+validation result, then — when the result
carries a staging path and no error — starts its load; the load finishes
only when the backend call returns without raising. -/
inductive PipeEvent where
  | resultAwaited (sid : ℤ)
  | loadStarted (sid : ℤ)
  | loadFinished (sid : ℤ)
deriving DecidableEq

/-- pipeline.py lines 150-174, the serial drain loop of
`run_ingestion_pipeline`, instrumented with its event trace.  Per subject,
in the deterministic order of the subject-id list: await the result; an
error result is logged via `log_ingestion_error` with the fixed type
`"ExtractionFailed"`; otherwise the staged batches are loaded; a load
exception is caught by the loop's generic handler (logged to the logger
only — the warehouse state is unchanged and nothing is written to
INGESTION_ERRORS). -/
def pipeline_step (b : Backend) (results : ℤ → ExtractResult)
    (st : WarehouseState) (sid : ℤ) : WarehouseState × List PipeEvent :=
  match (results sid).error with
  | some e =>
    (log_ingestion_error st sid "ExtractionFailed" e.message,
      [.resultAwaited sid])
  | none =>
    match (results sid).path with
    | none => (st, [.resultAwaited sid])
    | some batches =>
      match client_load_parquet b st.epochs batches sid with
      | .ok t => (⟨t, st.errors⟩,
          [.resultAwaited sid, .loadStarted sid, .loadFinished sid])
      | .error _ => (st, [.resultAwaited sid, .loadStarted sid])

/-- The drain loop over the subject-id list: thread the warehouse state
through `pipeline_step` and concatenate the per-subject event lists. -/
def run_traced (b : Backend) (results : ℤ → ExtractResult) :
    List ℤ → WarehouseState → WarehouseState × List PipeEvent
  | [], st => (st, [])
  | sid :: rest, st =>
    let step := pipeline_step b results st sid
    let next := run_traced b results rest step.1
    (next.1, step.2 ++ next.2)

/-- The final warehouse state of `run_ingestion_pipeline`. -/
def run_ingestion_pipeline (b : Backend) (subjects : List ℤ)
    (results : ℤ → ExtractResult) (st : WarehouseState) : WarehouseState :=
  (run_traced b results subjects st).1

/-- The event trace of `run_ingestion_pipeline`. -/
def pipeline_trace (b : Backend) (subjects : List ℤ)
    (results : ℤ → ExtractResult) (st : WarehouseState) : List PipeEvent :=
  (run_traced b results subjects st).2

/-- The subject of a `loadStarted` event, for projecting the load order
out of a trace. -/
def loadStartedSid : PipeEvent → Option ℤ
  | .loadStarted sid => some sid
  | _ => none

/-- Trace well-formedness: every `loadStarted sid` is immediately preceded
by `resultAwaited sid` — a load begins only right after the loop has
awaited that same subject's extraction+validation result.  `prev` is the
event preceding the list head. -/
def loads_follow_awaits (prev : Option PipeEvent) : List PipeEvent → Bool
  | [] => true
  | e :: rest =>
    (match e with
     | .loadStarted sid => prev == some (.resultAwaited sid)
     | _ => true) && loads_follow_awaits (some e) rest

/-- The scenario row of spec section 8: stage `"W"`, `delta_power = -5.0`,
`theta_power = 14.2`, `alpha_power = 8.0`, `sigma_power = 1.2`,
`beta_power = 2.5`. -/
def specNegRow : EpochRow :=
  ⟨1, 0, "W", .val (-5), .val (142/10), .val 8, .val (12/10), .val (25/10)⟩

/-- The same scenario row with `delta_power = NaN`. -/
def specNanRow : EpochRow :=
  ⟨1, 0, "W", .nan, .val (142/10), .val 8, .val (12/10), .val (25/10)⟩

/-- The same scenario row with `delta_power = +Inf`. -/
def specInfRow : EpochRow :=
  ⟨1, 0, "W", .inf, .val (142/10), .val 8, .val (12/10), .val (25/10)⟩

/-- Claim C1, counterexample: the batch holding the section-8 row with
`delta_power = +Inf` is accepted by `SleepSchema.validate` even though the
field is not finite — pandera only rejects nulls (NaN) in a non-nullable
float column, so the "all five power fields finite (never NaN/Inf)" part
of the claim is false on the code. -/
theorem C1_inf_passes_validation :
    SleepSchema_validate [specInfRow] = true
    ∧ specInfRow.delta_power.isFinite = false := by
  decide

/-- Claim C1 (amended): for every batch accepted by `SleepSchema`, every
row has integer `subject_id`/`epoch_idx` (the `ℤ` fields), `stage` among
the 7 enum symbols (in fact among the 5-symbol subset the schema checks),
and no power field equal to NaN — but finiteness is not enforced, as
infinities pass; the section-8 row with `delta_power = -5.0` passes and
its NaN variant fails. -/
theorem C1_schema_validator_policy :
    (∀ batch, SleepSchema_validate batch = true → ∀ r ∈ batch,
      r.stage ∈ stageEnum7 ∧ ∀ p ∈ r.powers, p ≠ PyFloat.nan)
    ∧ SleepSchema_validate [specNegRow] = true
    ∧ SleepSchema_validate [specNanRow] = false := by
  refine ⟨?_, by decide, by decide⟩
  intro batch hb r hr
  have hrow : sleepSchemaRowOk r = true := by
    have := List.all_eq_true.mp hb r hr
    exact this
  simp only [sleepSchemaRowOk, Bool.and_eq_true] at hrow
  constructor
  · have hmem : r.stage ∈ sleepSchemaStages :=
      List.mem_of_elem_eq_true hrow.1
    simp only [sleepSchemaStages, List.mem_cons, List.not_mem_nil,
      or_false] at hmem
    rcases hmem with h | h | h | h | h <;> (rw [h]; decide)
  · intro p hp
    have := List.all_eq_true.mp hrow.2 p hp
    cases p <;> simp [PyFloat.isNull] at this ⊢

/-- Witness for C1: the accepted one-row batch of the section-8 scenario
row instantiates the amended theorem. -/
theorem C1_schema_validator_policy_witness :
    specNegRow.stage ∈ stageEnum7 ∧ ∀ p ∈ specNegRow.powers, p ≠ PyFloat.nan :=
  C1_schema_validator_policy.1 [specNegRow] (by decide) specNegRow
    (List.mem_singleton_self _)

/-- A valid staged row for subject 1 (first batch). -/
def row1 : EpochRow := ⟨1, 0, "W", .val 1, .val 2, .val 3, .val 4, .val 5⟩

/-- A valid staged row for subject 1 (second batch). -/
def row2 : EpochRow := ⟨1, 1, "N1", .val 1, .val 2, .val 3, .val 4, .val 5⟩

/-- Claim C2, evaluation at the failing input: the DuckDB client has no
`overwrite` parameter, so the orchestrator call
`client.load_epochs(df, subject_id, overwrite=...)` raises `TypeError`
already on the first staged batch; the Snowflake client accepts the flag
and realises clear-then-append; and even called positionally, the DuckDB
client deletes the subject rows on every call, so a second batch erases
the first — the two backends do not share the claimed contract. -/
theorem C2_duckdb_lacks_overwrite_flag :
    DuckDB_call_load_epochs [] [row1] 1 (some true)
        = .error "TypeError: unexpected keyword argument overwrite"
    ∧ load_batches_duckdb [] [[row1], [row2]] 1 0
        = .error "TypeError: unexpected keyword argument overwrite"
    ∧ load_batches_snowflake [] [[row1], [row2]] 1 0 = [row1, row2]
    ∧ DuckDB_load_epochs (DuckDB_load_epochs [] [row1] 1) [row2] 1 = [row2] :=
  ⟨rfl, rfl, rfl, rfl⟩

set_option maxRecDepth 8000 in
/-- Claim C5: with `total_epochs = 250` and `batch_size = 100` the
streamer yields exactly 3 batches of sizes `[100, 100, 50]`, and the
`epoch_idx` columns concatenate to the contiguous sequence `0..249`. -/
theorem C5_batch_boundaries :
    (batch_epoch_idx 250 100).length = 3
    ∧ (batch_epoch_idx 250 100).map List.length = [100, 100, 50]
    ∧ (batch_epoch_idx 250 100).flatten = List.range 250 := by
  decide

/-- Delete-then-insert is stable: clearing a subject from a table that was
already cleared and refilled with that subject's own rows recovers the
cleared table. -/
theorem filter_ne_replace (table rows : List EpochRow) (sid : ℤ)
    (h : ∀ r ∈ rows, r.subject_id = sid) :
    (table.filter (fun r => r.subject_id != sid) ++ rows).filter
        (fun r => r.subject_id != sid)
      = table.filter (fun r => r.subject_id != sid) := by
  have hrows : rows.filter (fun r => r.subject_id != sid) = [] := by
    rw [List.filter_eq_nil_iff]; intro r hr; simp [h r hr]
  induction table with
  | nil => simpa using hrows
  | cons a t ih =>
    by_cases ha : a.subject_id = sid
    · simpa [List.filter_cons, ha] using ih
    · simpa [List.filter_cons, ha] using ih

/-- After delete-then-insert, the subject's rows in the table are exactly
the inserted rows. -/
theorem filter_eq_replace (table rows : List EpochRow) (sid : ℤ)
    (h : ∀ r ∈ rows, r.subject_id = sid) :
    (table.filter (fun r => r.subject_id != sid) ++ rows).filter
        (fun r => r.subject_id == sid) = rows := by
  have hrows : rows.filter (fun r => r.subject_id == sid) = rows := by
    rw [List.filter_eq_self]; intro r hr; simp [h r hr]
  induction table with
  | nil => simpa using hrows
  | cons a t ih =>
    by_cases ha : a.subject_id = sid
    · simpa [List.filter_cons, ha] using ih
    · simpa [List.filter_cons, ha] using ih

/-- With `overwrite=True` (its default), the Snowflake client performs the
same delete-then-insert replacement as the DuckDB client. -/
theorem snowflake_overwrite_eq_duckdb (table rows : List EpochRow) (sid : ℤ) :
    Snowflake_load_epochs table rows sid true = DuckDB_load_epochs table rows sid := by
  cases rows <;> simp [Snowflake_load_epochs, DuckDB_load_epochs]

/-- Claim C3: for every subject and every row set belonging to that
subject, loading twice in the default/overwrite mode leaves the state of a
single load, and the subject's persisted rows are exactly one copy of the
loaded rows — in both backends, because existing rows of the subject are
deleted before the new set is inserted. -/
theorem C3_load_epochs_idempotent (table rows : List EpochRow) (sid : ℤ)
    (h : ∀ r ∈ rows, r.subject_id = sid) :
    DuckDB_load_epochs (DuckDB_load_epochs table rows sid) rows sid
        = DuckDB_load_epochs table rows sid
    ∧ (DuckDB_load_epochs (DuckDB_load_epochs table rows sid) rows sid).filter
        (fun r => r.subject_id == sid) = rows
    ∧ Snowflake_load_epochs (Snowflake_load_epochs table rows sid true) rows sid true
        = Snowflake_load_epochs table rows sid true
    ∧ (Snowflake_load_epochs (Snowflake_load_epochs table rows sid true) rows sid
        true).filter (fun r => r.subject_id == sid) = rows := by
  have hduck : DuckDB_load_epochs (DuckDB_load_epochs table rows sid) rows sid
      = DuckDB_load_epochs table rows sid := by
    simp only [DuckDB_load_epochs]
    rw [filter_ne_replace table rows sid h]
  refine ⟨hduck, ?_, ?_, ?_⟩
  · rw [hduck]
    exact filter_eq_replace table rows sid h
  · simp only [snowflake_overwrite_eq_duckdb]
    exact hduck
  · simp only [snowflake_overwrite_eq_duckdb]
    rw [hduck]
    exact filter_eq_replace table rows sid h

/-- Witness for C3: a concrete double load for subject 1 on a table that
already holds a row of subject 2. -/
theorem C3_load_epochs_idempotent_witness :
    DuckDB_load_epochs (DuckDB_load_epochs [⟨2, 0, "W", .val 1, .val 1, .val 1,
        .val 1, .val 1⟩] [row1, row2] 1) [row1, row2] 1
      = DuckDB_load_epochs [⟨2, 0, "W", .val 1, .val 1, .val 1, .val 1, .val 1⟩]
        [row1, row2] 1 :=
  (C3_load_epochs_idempotent _ [row1, row2] 1 (by decide)).1

/-- Selecting every index of a list in order recovers the list. -/
theorem filterMap_get_range {α : Type} (l : List α) :
    (List.range l.length).filterMap l.get? = l := by
  induction l with
  | nil => simp
  | cons a t ih =>
    rw [List.length_cons, List.range_succ_eq_map, List.filterMap_cons,
      List.filterMap_map]
    simp only [List.get?_cons_zero]
    have h : (List.range t.length).filterMap ((a :: t).get? ∘ Nat.succ)
        = (List.range t.length).filterMap t.get? := by
      apply List.filterMap_congr
      intro i _
      simp
    rw [h, ih]

/-- The channel indices chosen by `calculate_band_power` are always
in bounds, and at least one channel is selected whenever any channel
exists (the EEG filter or, failing that, the all-channels fallback). -/
theorem eeg_channel_indices_sound (ch_names : List String) :
    (∀ i ∈ eeg_channel_indices ch_names, i < ch_names.length)
    ∧ (ch_names ≠ [] → eeg_channel_indices ch_names ≠ []) := by
  unfold eeg_channel_indices
  by_cases hemp : ((ch_names.enum.filter (fun p => containsEEG p.2)).map
      (fun p => p.1)).isEmpty
  · simp only [hemp, if_pos]
    constructor
    · intro i hi
      exact List.mem_range.mp hi
    · intro hne
      simp only [ne_eq, List.range_eq_nil]
      intro hlen
      exact hne (List.length_eq_zero.mp hlen)
  · simp only [hemp, if_neg, Bool.not_eq_true]
    constructor
    · intro i hi
      obtain ⟨p, hp, hpi⟩ := List.mem_map.mp hi
      have hpe : p ∈ ch_names.enum := (List.mem_filter.mp hp).1
      have := List.mem_enum_iff_get?.mp hpe
      have hlt := List.get?_eq_some.mp this
      exact hpi ▸ hlt.1
    · intro _
      intro hnil
      rw [hnil] at hemp
      exact hemp rfl

/-- Claim C8: when no channel name contains `"EEG"`, `calculate_band_power`
does not fail: the index list falls back to every available channel, the
selected tensor is the whole PSD, and the result still has one entry per
epoch. -/
theorem C8_channel_fallback (psd : List (List (List ℚ))) (freqs : List ℚ)
    (ch_names : List String) (fmin fmax : ℚ)
    (hno : ∀ name ∈ ch_names, containsEEG name = false)
    (halign : ∀ epoch ∈ psd, epoch.length = ch_names.length) :
    eeg_channel_indices ch_names = List.range ch_names.length
    ∧ select_channels psd (eeg_channel_indices ch_names) = psd
    ∧ (band_power_floored psd freqs ch_names fmin fmax).length = psd.length := by
  have hidx : eeg_channel_indices ch_names = List.range ch_names.length := by
    unfold eeg_channel_indices
    have hfil : ch_names.enum.filter (fun p => containsEEG p.2) = [] := by
      rw [List.filter_eq_nil_iff]
      intro p hp
      have hmem : p.2 ∈ ch_names := by
        have := List.mem_enum_iff_get?.mp hp
        exact List.get?_mem this
      simp [hno p.2 hmem]
    simp [hfil]
  refine ⟨hidx, ?_, ?_⟩
  · rw [hidx]
    unfold select_channels
    have : ∀ epoch ∈ psd,
        (List.range ch_names.length).filterMap epoch.get? = epoch := by
      intro epoch he
      rw [← halign epoch he]
      exact filterMap_get_range epoch
    calc psd.map (fun epoch => (List.range ch_names.length).filterMap epoch.get?)
        = psd.map id := List.map_congr_left this
      _ = psd := List.map_id psd
  · simp [band_power_floored, select_channels]

/-- Witness for C8: a two-channel PSD whose channel names are
`EOG horizontal` and `EMG submental` — no EEG match — falls back to both
channels and yields one value for its single epoch. -/
theorem C8_channel_fallback_witness :
    eeg_channel_indices ["EOG horizontal", "EMG submental"] = List.range 2
    ∧ select_channels [[[1, 2], [3, 4]]]
        (eeg_channel_indices ["EOG horizontal", "EMG submental"])
      = [[[1, 2], [3, 4]]]
    ∧ (band_power_floored [[[1, 2], [3, 4]]] [0, 1]
        ["EOG horizontal", "EMG submental"] 0 1).length = 1 :=
  C8_channel_fallback [[[1, 2], [3, 4]]] [0, 1]
    ["EOG horizontal", "EMG submental"] 0 1 (by decide) (by decide)

/-- `log10` of the floor constant `1e-10` is `-10`. -/
theorem logb_ten_floor : Real.logb 10 ((1 : ℝ) / 10 ^ 10) = -10 := by
  rw [show ((1 : ℝ) / 10 ^ 10) = (10 : ℝ) ^ (-10 : ℤ) by norm_num [zpow_neg]]
  rw [Real.logb, Real.log_zpow]
  field_simp

/-- The channel mean of a non-empty row whose entries all equal the floor
constant `1e-10` is exactly `-100` dB. -/
theorem db_mean_floor_const (row : List ℚ) (hne : row ≠ [])
    (hall : ∀ q ∈ row, q = 1 / 10 ^ 10) : db_mean row = -100 := by
  have hrep : row = List.replicate row.length ((1 : ℚ) / 10 ^ 10) :=
    List.eq_replicate.mpr ⟨rfl, hall⟩
  have hl0 : ((row.length : ℝ)) ≠ 0 := by
    have := List.length_pos.mpr hne
    positivity
  unfold db_mean
  conv_lhs => rw [hrep]
  rw [List.map_replicate, List.sum_replicate, List.length_replicate]
  have hc : (((1 : ℚ) / 10 ^ 10 : ℚ) : ℝ) = (1 : ℝ) / 10 ^ 10 := by
    push_cast; ring
  rw [hc, logb_ten_floor, nsmul_eq_mul]
  field_simp
  ring

/-- For an all-zero PSD the integrated power of every selected channel is
exactly `0`, so the floor produces exactly `1e-10`. -/
theorem band_power_floored_zero (psd : List (List (List ℚ))) (freqs : List ℚ)
    (ch_names : List String) (fmin fmax : ℚ)
    (hzero : ∀ e ∈ psd, ∀ c ∈ e, ∀ x ∈ c, x = (0 : ℚ)) :
    ∀ row ∈ band_power_floored psd freqs ch_names fmin fmax,
      ∀ q ∈ row, q = 1 / 10 ^ 10 := by
  intro row hrow q hq
  unfold band_power_floored select_channels at hrow
  simp only [List.map_map, List.mem_map] at hrow
  obtain ⟨epoch, hep, hrow⟩ := hrow
  subst hrow
  simp only [Function.comp_apply, List.mem_map] at hq
  obtain ⟨chan, hchan, hqeq⟩ := hq
  obtain ⟨i, _, hget⟩ := List.mem_filterMap.mp hchan
  have hchmem : chan ∈ epoch := List.get?_mem hget
  have hsum : (apply_mask chan (band_mask freqs fmin fmax)).sum = 0 := by
    apply List.sum_eq_zero
    intro x hx
    unfold apply_mask at hx
    simp only [List.mem_map, List.mem_filter] at hx
    obtain ⟨p, ⟨hpz, _⟩, hpx⟩ := hx
    have hp1 := (List.of_mem_zip hpz).1
    rw [← hpx]
    exact hzero epoch hep chan hchmem p.1 hp1
  rw [← hqeq, hsum]
  norm_num

/-- Concrete evaluation: one all-zero epoch, one EEG channel, two frequency
bins with spacing 2, band [0,4] — the floored linear power is exactly the
epsilon `1e-10`. -/
theorem bpf_zero_eval :
    band_power_floored [[[0, 0]]] [0, 2] ["EEG"] 0 4 = [[1 / 10 ^ 10]] := by
  unfold band_power_floored select_channels eeg_channel_indices band_mask
    apply_mask freq_res containsEEG
  norm_num
  rw [show List.filterMap (fun i => [[(0 : ℚ), 0]][i]?) [0] = [[0, 0]] from rfl]
  norm_num [List.zip, List.zipWith, List.filter]

/-- Claim C4 (amended): for every frequency band and every all-zero PSD
input, each selected channel's floored integrated power is exactly the
epsilon `1e-10` (the scaling by `freq_res * 1e12` happens before the
floor, but `0 * freq_res * 1e12 = 0`, so the result does not depend on
`freq_res`), every floored value is strictly positive (hence `10*log10`
is a finite real — never `-inf` or `NaN`), and the returned dB value of
every epoch is `10*log10(1e-10) = -100`. -/
theorem C4_all_zero_psd_band_power (psd : List (List (List ℚ)))
    (freqs : List ℚ) (ch_names : List String) (fmin fmax : ℚ)
    (hzero : ∀ e ∈ psd, ∀ c ∈ e, ∀ x ∈ c, x = (0 : ℚ))
    (halign : ∀ e ∈ psd, e.length = ch_names.length)
    (hch : ch_names ≠ []) :
    ∀ row ∈ band_power_floored psd freqs ch_names fmin fmax,
      row ≠ [] ∧ (∀ q ∈ row, q = 1 / 10 ^ 10 ∧ 0 < q)
      ∧ db_mean row = 10 * Real.logb 10 ((1 : ℝ) / 10 ^ 10)
      ∧ db_mean row = -100 := by
  intro row hrow
  have hall : ∀ q ∈ row, q = 1 / 10 ^ 10 :=
    band_power_floored_zero psd freqs ch_names fmin fmax hzero row hrow
  have hne : row ≠ [] := by
    unfold band_power_floored select_channels at hrow
    simp only [List.map_map, List.mem_map] at hrow
    obtain ⟨epoch, hep, hrow⟩ := hrow
    subst hrow
    simp only [Function.comp_apply, ne_eq, List.map_eq_nil]
    obtain ⟨i0, hi0⟩ :=
      List.exists_mem_of_ne_nil _ ((eeg_channel_indices_sound ch_names).2 hch)
    intro hcontra
    have hnone := List.filterMap_eq_nil.mp hcontra i0 hi0
    have hle := List.get?_eq_none.mp hnone
    have hlt : i0 < ch_names.length :=
      (eeg_channel_indices_sound ch_names).1 i0 hi0
    rw [halign epoch hep] at hle
    omega
  refine ⟨hne, fun q hq => ⟨hall q hq, by rw [hall q hq]; norm_num⟩, ?_,
    db_mean_floor_const row hne hall⟩
  rw [db_mean_floor_const row hne hall, logb_ten_floor]
  norm_num

/-- Witness for C4: a single all-zero epoch over one EEG channel and two
frequency bins. -/
theorem C4_all_zero_psd_band_power_witness :
    [(1 : ℚ) / 10 ^ 10] ≠ []
    ∧ (∀ q ∈ [(1 : ℚ) / 10 ^ 10], q = 1 / 10 ^ 10 ∧ 0 < q)
    ∧ db_mean [(1 : ℚ) / 10 ^ 10] = 10 * Real.logb 10 ((1 : ℝ) / 10 ^ 10)
    ∧ db_mean [(1 : ℚ) / 10 ^ 10] = -100 :=
  C4_all_zero_psd_band_power [[[0, 0]]] [0, 2] ["EEG"] 0 4
    (by norm_num) (by norm_num) (by norm_num) [(1 : ℚ) / 10 ^ 10]
    (bpf_zero_eval ▸ List.mem_singleton_self _)

/-- Claim C4, counterexample: for the all-zero PSD with `freq_res = 2`,
the code returns `-100` dB (`10*log10(1e-10)`), not the claimed
`10*log10(1e-10 * freq_res * 1e12)` — the floor is applied after the
`freq_res * 1e12` scaling, not before it. -/
theorem C4_formula_counterexample :
    band_power_floored [[[0, 0]]] [0, 2] ["EEG"] 0 4 = [[1 / 10 ^ 10]]
    ∧ freq_res [0, 2] = 2
    ∧ db_mean [(1 : ℚ) / 10 ^ 10] = -100
    ∧ db_mean [(1 : ℚ) / 10 ^ 10]
        ≠ 10 * Real.logb 10 ((((1 : ℚ) / 10 ^ 10 * freq_res [0, 2]
            * 10 ^ 12 : ℚ) : ℝ)) := by
  have h2 : freq_res [0, 2] = 2 := by norm_num [freq_res]
  have h3 : db_mean [(1 : ℚ) / 10 ^ 10] = -100 :=
    db_mean_floor_const _ (by simp) (by intro q hq; simpa using hq)
  refine ⟨bpf_zero_eval, h2, h3, ?_⟩
  rw [h3]
  have hcast : ((((1 : ℚ) / 10 ^ 10 * freq_res [0, 2] * 10 ^ 12 : ℚ)) : ℝ)
      = 200 := by
    rw [h2]; push_cast; norm_num
  rw [hcast]
  have hpos : (0 : ℝ) < Real.logb 10 200 :=
    Real.logb_pos (by norm_num) (by norm_num)
  intro hcontra
  linarith

/-- Per-subject error effect: a step appends exactly one
`ExtractionFailed` row when the awaited result carries an error, and
leaves INGESTION_ERRORS untouched otherwise (including when the load
raises — the loop's generic handler only writes to the logger). -/
theorem pipeline_step_errors (b : Backend) (results : ℤ → ExtractResult)
    (st : WarehouseState) (sid : ℤ) :
    (pipeline_step b results st sid).1.errors
      = st.errors ++ ((results sid).error.map
          (fun e => (⟨sid, "ExtractionFailed", e.message⟩ : ErrorLogRow))).toList := by
  unfold pipeline_step
  cases hres : (results sid).error with
  | some e => simp [log_ingestion_error]
  | none =>
    cases hpath : (results sid).path with
    | none => simp
    | some batches =>
      cases hload : client_load_parquet b st.epochs batches sid with
      | ok t => simp [hload]
      | error e => simp [hload]

/-- Claim C7 (amended): for every run, every backend and every initial
state, the rows the orchestrator appends to INGESTION_ERRORS are exactly,
in subject order, one row per subject whose extraction result carried an
error — and every such row has the single catch-all
`error_type = "ExtractionFailed"`, whatever the failure was (zero files,
zero epochs, schema violations, arbitrary exceptions); subjects whose
load fails contribute no error row at all. -/
theorem C7_catch_all_error_type (b : Backend) (subjects : List ℤ)
    (results : ℤ → ExtractResult) (st : WarehouseState) :
    (run_ingestion_pipeline b subjects results st).errors
      = st.errors ++ subjects.flatMap (fun sid => ((results sid).error.map
          (fun e => (⟨sid, "ExtractionFailed", e.message⟩ : ErrorLogRow))).toList) := by
  induction subjects generalizing st with
  | nil => simp [run_ingestion_pipeline, run_traced]
  | cons s rest ih =>
    unfold run_ingestion_pipeline run_traced
    simp only [List.flatMap_cons]
    rw [← List.append_assoc, ← pipeline_step_errors b results st s]
    exact ih (pipeline_step b results st s).1

/-- Claim C7, counterexample: a subject with zero source files is logged
with `error_type = "ExtractionFailed"`, not the claimed `"NoData"`. -/
theorem C7_no_data_counterexample :
    (run_ingestion_pipeline .duckdb [1]
        (fun _ => extract_to_parquet 1 ⟨[], [], none⟩) ⟨[], []⟩).errors
      = [⟨1, "ExtractionFailed", "No files found"⟩]
    ∧ "ExtractionFailed" ≠ "NoData" := by
  refine ⟨rfl, by decide⟩

/-- The load-start events contributed by one subject's step: exactly one,
for that subject, when its result carries a staging path and no error. -/
theorem pipeline_step_load_events (b : Backend) (results : ℤ → ExtractResult)
    (st : WarehouseState) (sid : ℤ) :
    (pipeline_step b results st sid).2.filterMap loadStartedSid
      = if ((results sid).error.isNone && (results sid).path.isSome) = true
        then [sid] else [] := by
  unfold pipeline_step
  cases hres : (results sid).error with
  | some e => simp [loadStartedSid, hres]
  | none =>
    cases hpath : (results sid).path with
    | none => simp [loadStartedSid, hres, hpath]
    | some batches =>
      cases hload : client_load_parquet b st.epochs batches sid with
      | ok t => simp [loadStartedSid, hres, hpath, hload]
      | error e => simp [loadStartedSid, hres, hpath, hload]

/-- Each per-subject event block has one of three shapes, and each begins
with `resultAwaited` and keeps any `loadStarted` right behind it. -/
theorem pipeline_step_event_shape (b : Backend) (results : ℤ → ExtractResult)
    (st : WarehouseState) (sid : ℤ) :
    (pipeline_step b results st sid).2 = [.resultAwaited sid]
    ∨ (pipeline_step b results st sid).2
        = [.resultAwaited sid, .loadStarted sid]
    ∨ (pipeline_step b results st sid).2
        = [.resultAwaited sid, .loadStarted sid, .loadFinished sid] := by
  unfold pipeline_step
  cases hres : (results sid).error with
  | some e => exact Or.inl rfl
  | none =>
    cases hpath : (results sid).path with
    | none => exact Or.inl rfl
    | some batches =>
      cases hload : client_load_parquet b st.epochs batches sid with
      | ok t => exact Or.inr (Or.inr (by simp [hload]))
      | error e => exact Or.inr (Or.inl (by simp [hload]))

/-- In every trace the loop produces, a load start is immediately preceded
by the await of the same subject's result — whatever event (if any)
precedes the trace. -/
theorem trace_loads_follow_awaits (b : Backend) (results : ℤ → ExtractResult)
    (subjects : List ℤ) :
    ∀ (st : WarehouseState) (prev : Option PipeEvent),
      loads_follow_awaits prev (run_traced b results subjects st).2 = true := by
  induction subjects with
  | nil => intro st prev; rfl
  | cons s rest ih =>
    intro st prev
    show loads_follow_awaits prev
      ((pipeline_step b results st s).2
        ++ (run_traced b results rest (pipeline_step b results st s).1).2) = true
    rcases pipeline_step_event_shape b results st s with h | h | h <;>
      rw [h] <;> simp only [List.cons_append, List.nil_append,
        loads_follow_awaits] <;>
      simp [ih (pipeline_step b results st s).1]

/-- Claim C9: for every run (any backend, any results, any initial state),
(1) the subjects whose loads start, in trace order, are exactly the
subjects with a successful extraction result in the deterministic order of
the subject-id list — loads are driven by the iteration order of the
awaited results, not by any completion order — and (2) within one subject
the load never begins before that subject's result (extraction and
validation) has been awaited: every `loadStarted` is immediately preceded
by the matching `resultAwaited`, so loads are strictly serial. -/
theorem C9_serial_subject_order_loads (b : Backend) (subjects : List ℤ)
    (results : ℤ → ExtractResult) (st : WarehouseState) :
    (pipeline_trace b subjects results st).filterMap loadStartedSid
        = subjects.filter
            (fun sid => (results sid).error.isNone && (results sid).path.isSome)
    ∧ loads_follow_awaits none (pipeline_trace b subjects results st) = true := by
  constructor
  · unfold pipeline_trace
    induction subjects generalizing st with
    | nil => rfl
    | cons s rest ih =>
      show ((pipeline_step b results st s).2
          ++ (run_traced b results rest (pipeline_step b results st s).1).2).filterMap
            loadStartedSid = _
      rw [List.filterMap_append, pipeline_step_load_events, List.filter_cons,
        ih (pipeline_step b results st s).1]
      by_cases hc : ((results s).error.isNone && (results s).path.isSome) = true
      · simp [hc]
      · simp [hc]
  · exact trace_loads_follow_awaits b results subjects st none

/-- A valid staged row for subject 3. -/
def row3 : EpochRow := ⟨3, 0, "N2", .val 1, .val 2, .val 3, .val 4, .val 5⟩

/-- The three-subject scenario of claim C6: subjects 1 and 3 extract
successfully (one and two staged batches), subject 2's generator raises a
`ValueError`. -/
def c6_results : ℤ → ExtractResult := fun sid =>
  if sid = 1 then extract_to_parquet 1 ⟨[("p1", "h1")], [[row1], [row2]], none⟩
  else if sid = 2 then
    extract_to_parquet 2 ⟨[("p2", "h2")], [], some ("ValueError", "boom", "tb")⟩
  else extract_to_parquet 3 ⟨[("p3", "h3")], [[row3]], none⟩

/-- Claim C6, evaluation at the failing input: with the Snowflake backend
the run behaves as claimed — subjects 1 and 3's rows persisted, exactly
one error row referencing subject 2 and none referencing 1 or 3 — but with
the default DuckDB backend every load raises `TypeError` (the missing
`overwrite` parameter), the exception is swallowed by the loop's generic
handler, and the persisted store ends the run empty. -/
theorem C6_partial_failure_isolation :
    (run_ingestion_pipeline .snowflake [1, 2, 3] c6_results ⟨[], []⟩).epochs
        = [row1, row2, row3]
    ∧ (run_ingestion_pipeline .snowflake [1, 2, 3] c6_results ⟨[], []⟩).errors
        = [⟨2, "ExtractionFailed", "boom"⟩]
    ∧ (run_ingestion_pipeline .duckdb [1, 2, 3] c6_results ⟨[], []⟩).epochs = []
    ∧ (run_ingestion_pipeline .duckdb [1, 2, 3] c6_results ⟨[], []⟩).errors
        = [⟨2, "ExtractionFailed", "boom"⟩] :=
  ⟨rfl, rfl, rfl, rfl⟩


/-- Claim C10, counterexample: the staging-directory setup (pipeline.py
lines 34-37, `shutil.rmtree` of an existing directory and `mkdir`) runs
before the `try:` at line 39, so a filesystem failure there is converted
into no error field — it propagates out of the task and reaches the flow
loop as a raise, refuting "never propagates an exception" and "always
returns a result dict". -/
theorem C10_staging_failure_escapes :
    extract_to_parquet_task 1 (some "PermissionError: data/staging/subject_1")
        ⟨[("p1", "h1")], [[row1]], none⟩
      = .error "PermissionError: data/staging/subject_1" := rfl

/-- Claim C10 (amended): a staging-directory setup failure propagates out
of the task uncaught; once that setup succeeds, the task is total — for
every subject and every environment it returns a result dict with the keys
`subject_id` (the input id), `path` and `error`, with `path` set exactly
when `error` is absent; zero source files, a schema violation, a generator
exception and zero staged batches are all turned into `error` values
(with `path` `None`) rather than raised. -/
theorem C10_extract_total_after_staging (sid : ℤ)
    (stagingError : Option String) (env : ExtractEnv) :
    (∀ msg, stagingError = some msg →
        extract_to_parquet_task sid stagingError env = .error msg)
    ∧ (stagingError = none →
        extract_to_parquet_task sid stagingError env
          = .ok (extract_to_parquet sid env))
    ∧ (extract_to_parquet sid env).subject_id = sid
    ∧ ((extract_to_parquet sid env).path.isSome
        ↔ (extract_to_parquet sid env).error = none)
    ∧ (env.files = [] →
        (extract_to_parquet sid env).error = some (.plain "No files found"))
    ∧ (env.files ≠ [] →
        ¬ ((env.yielded.filter (fun b => !b.isEmpty)).all SleepSchema_validate
            = true) →
        (extract_to_parquet sid env).error
          = some (.dict "SchemaError" "schema validation failed" none))
    ∧ (∀ ty msg tr, env.files ≠ [] →
        (env.yielded.filter (fun b => !b.isEmpty)).all SleepSchema_validate
          = true →
        env.genError = some (ty, msg, tr) →
        (extract_to_parquet sid env).error = some (.dict ty msg (some tr)))
    ∧ (env.files ≠ [] →
        (env.yielded.filter (fun b => !b.isEmpty)).all SleepSchema_validate
          = true →
        env.genError = none →
        env.yielded.filter (fun b => !b.isEmpty) = [] →
        (extract_to_parquet sid env).error = some (.plain "No epochs processed"))
    ∧ (∀ e, (extract_to_parquet sid env).error = some e →
        (extract_to_parquet sid env).path = none) := by
  refine ⟨?_, ?_, ?_⟩
  · intro msg hmsg
    rw [hmsg]
    rfl
  · intro hnone
    rw [hnone]
    rfl
  unfold extract_to_parquet
  by_cases hf : env.files.isEmpty
  · have hfe : env.files = [] := List.isEmpty_iff.mp hf
    simp [hf, hfe]
  · have hfe : env.files ≠ [] := by
      intro hc; rw [hc] at hf; exact hf rfl
    by_cases hv : (env.yielded.filter (fun b => !b.isEmpty)).all
        SleepSchema_validate = true
    · cases hg : env.genError with
      | some p =>
        obtain ⟨ty, msg, tr⟩ := p
        simp [hf, hv, hg, hfe]
      | none =>
        by_cases hs : (env.yielded.filter (fun b => !b.isEmpty)).isEmpty
        · have hse := List.isEmpty_iff.mp hs
          simp [hf, hv, hg, hs, hfe, hse]
        · have hse : env.yielded.filter (fun b => !b.isEmpty) ≠ [] := by
            intro hc; rw [hc] at hs; exact hs rfl
          simp [hf, hv, hg, hs, hfe, hse]
    · simp [hf, hv, hfe]

/-- Witness for C10: with a successful staging setup and the zero-files
environment for subject 5, the task returns the result dict whose error
field is the plain string `"No files found"`. -/
theorem C10_extract_total_after_staging_witness :
    extract_to_parquet_task 5 none ⟨[], [], none⟩
        = .ok (extract_to_parquet 5 ⟨[], [], none⟩)
    ∧ (extract_to_parquet 5 ⟨[], [], none⟩).error
        = some (.plain "No files found") :=
  ⟨(C10_extract_total_after_staging 5 none ⟨[], [], none⟩).2.1 rfl,
   (C10_extract_total_after_staging 5 none ⟨[], [], none⟩).2.2.2.2.1 rfl⟩
